import Mathlib

/-!
Verification development for the flashcard-generation route handler.

The handler (`POST` in the route module) authenticates a user, enforces a
free-plan quota, builds a prompt, calls a completion service, recovers a JSON
value from its reply, cleans the flashcard list and persists the result.
JavaScript strings are modelled as `List Char`, JavaScript runtime numbers as
exact rationals extended with NaN and the two infinities (double rounding is
not modelled; no claim depends on it), and JSON values as an inductive type.
-/

set_option maxRecDepth 4000

/-- JavaScript strings, modelled as lists of unicode characters. -/
abbrev Str := List Char

/-- Whitespace as recognised by JavaScript `\s` / `String.prototype.trim`
(ASCII whitespace plus NBSP and BOM; the rarer unicode spaces are omitted,
no claim depends on them). -/
def jsWs (c : Char) : Bool :=
  c = ' ' || c = '\t' || c = '\n' || c = '\r' || c = '\x0b' || c = '\x0c' ||
  c = '\u00A0' || c = '\uFEFF'

/-- Strip leading JavaScript whitespace. -/
def trimLeft (l : Str) : Str := l.dropWhile jsWs

/-- Strip trailing JavaScript whitespace. -/
def trimRight (l : Str) : Str := (l.reverse.dropWhile jsWs).reverse

/-- `String.prototype.trim`: strip whitespace at both ends. -/
def jsTrim (l : Str) : Str := trimRight (trimLeft l)

/-- ASCII lower-casing of one character (model of `toLowerCase`; the handler
only lower-cases ASCII header text and the fence search pattern). -/
def lowerChar (c : Char) : Char :=
  if 'A' ≤ c ∧ c ≤ 'Z' then Char.ofNat (c.toNat + 32) else c

/-- Lower-case a string character-wise. -/
def lowerStr (l : Str) : Str := l.map lowerChar

/-- `String.prototype.startsWith`. -/
def startsWithStr (l p : Str) : Bool := p.isPrefixOf l

/-- `String.prototype.indexOf` for a single character: index of the first
occurrence, `none` when absent. -/
def indexOfChar : Str → Char → Option Nat
  | [], _ => none
  | c :: rest, x => if c = x then some 0 else (indexOfChar rest x).map (· + 1)

/-- `String.prototype.lastIndexOf` for a single character, with JavaScript's
`-1` for "absent". -/
def lastIndexOfInt (t : Str) (x : Char) : Int :=
  match indexOfChar t.reverse x with
  | none => -1
  | some i => ((t.length - 1 - i : Nat) : Int)

/-- `String.prototype.slice(a, b)` for `0 ≤ a ≤ b` (the handler only slices
with nonnegative bounds). -/
def sliceStr (l : Str) (a b : Nat) : Str := (l.take b).drop a

/-- Index of the first position where `pat` occurs as a contiguous substring. -/
def findSubIdx : Str → Str → Option Nat
  | [], pat => if pat.isEmpty then some 0 else none
  | c :: rest, pat =>
    if pat.isPrefixOf (c :: rest) then some 0
    else (findSubIdx rest pat).map (· + 1)

/-- JavaScript runtime numbers: exact rationals plus `NaN` and the two
infinities.  IEEE-754 rounding is not modelled (all values the claims touch
are small integers); `-0` is conflated with `0`. -/
inductive JSNum where
  | num (q : ℚ)
  | nan
  | inf
  | ninf
deriving DecidableEq, Repr

/-- JavaScript `+` on numbers. -/
def jsAdd : JSNum → JSNum → JSNum
  | .nan, _ => .nan
  | _, .nan => .nan
  | .inf, .ninf => .nan
  | .ninf, .inf => .nan
  | .inf, _ => .inf
  | _, .inf => .inf
  | .ninf, _ => .ninf
  | _, .ninf => .ninf
  | .num a, .num b => .num (a + b)

/-- `Math.min` on two numbers (NaN-propagating). -/
def jsMin : JSNum → JSNum → JSNum
  | .nan, _ => .nan
  | _, .nan => .nan
  | .ninf, _ => .ninf
  | _, .ninf => .ninf
  | .inf, b => b
  | a, .inf => a
  | .num a, .num b => .num (min a b)

/-- `Math.max` on two numbers (NaN-propagating). -/
def jsMax : JSNum → JSNum → JSNum
  | .nan, _ => .nan
  | _, .nan => .nan
  | .inf, _ => .inf
  | _, .inf => .inf
  | .ninf, b => b
  | a, .ninf => a
  | .num a, .num b => .num (max a b)

/-- JavaScript `>` on numbers (`false` whenever an operand is NaN). -/
def jsGtBool : JSNum → JSNum → Bool
  | .nan, _ => false
  | _, .nan => false
  | .inf, .inf => false
  | .inf, _ => true
  | _, .inf => false
  | .ninf, .ninf => false
  | .ninf, _ => false
  | _, .ninf => true
  | .num a, .num b => decide (b < a)

/-- JSON values (the values produced by `JSON.parse` and carried through the
handler).  Object fields keep their textual order; duplicate keys are kept,
and property lookup takes the last binding, matching `JSON.parse`. -/
inductive Json where
  | null
  | bool (b : Bool)
  | num (q : ℚ)
  | str (s : Str)
  | arr (elems : List Json)
  | obj (fields : List (Str × Json))

mutual

/-- Decidable equality on JSON values (the derive handler does not support
this nested inductive, so it is spelled out by hand). -/
def decEqJson : (a b : Json) → Decidable (a = b)
  | .null, .null => isTrue rfl
  | .bool a, .bool b =>
    if h : a = b then isTrue (by rw [h]) else isFalse (fun he => h (Json.bool.inj he))
  | .num a, .num b =>
    if h : a = b then isTrue (by rw [h]) else isFalse (fun he => h (Json.num.inj he))
  | .str a, .str b =>
    if h : a = b then isTrue (by rw [h]) else isFalse (fun he => h (Json.str.inj he))
  | .arr xs, .arr ys =>
    match decEqJsonList xs ys with
    | isTrue h => isTrue (by rw [h])
    | isFalse h => isFalse (fun he => h (Json.arr.inj he))
  | .obj fs, .obj gs =>
    match decEqJsonFields fs gs with
    | isTrue h => isTrue (by rw [h])
    | isFalse h => isFalse (fun he => h (Json.obj.inj he))
  | .null, .bool _ => isFalse (fun h => nomatch h)
  | .null, .num _ => isFalse (fun h => nomatch h)
  | .null, .str _ => isFalse (fun h => nomatch h)
  | .null, .arr _ => isFalse (fun h => nomatch h)
  | .null, .obj _ => isFalse (fun h => nomatch h)
  | .bool _, .null => isFalse (fun h => nomatch h)
  | .bool _, .num _ => isFalse (fun h => nomatch h)
  | .bool _, .str _ => isFalse (fun h => nomatch h)
  | .bool _, .arr _ => isFalse (fun h => nomatch h)
  | .bool _, .obj _ => isFalse (fun h => nomatch h)
  | .num _, .null => isFalse (fun h => nomatch h)
  | .num _, .bool _ => isFalse (fun h => nomatch h)
  | .num _, .str _ => isFalse (fun h => nomatch h)
  | .num _, .arr _ => isFalse (fun h => nomatch h)
  | .num _, .obj _ => isFalse (fun h => nomatch h)
  | .str _, .null => isFalse (fun h => nomatch h)
  | .str _, .bool _ => isFalse (fun h => nomatch h)
  | .str _, .num _ => isFalse (fun h => nomatch h)
  | .str _, .arr _ => isFalse (fun h => nomatch h)
  | .str _, .obj _ => isFalse (fun h => nomatch h)
  | .arr _, .null => isFalse (fun h => nomatch h)
  | .arr _, .bool _ => isFalse (fun h => nomatch h)
  | .arr _, .num _ => isFalse (fun h => nomatch h)
  | .arr _, .str _ => isFalse (fun h => nomatch h)
  | .arr _, .obj _ => isFalse (fun h => nomatch h)
  | .obj _, .null => isFalse (fun h => nomatch h)
  | .obj _, .bool _ => isFalse (fun h => nomatch h)
  | .obj _, .num _ => isFalse (fun h => nomatch h)
  | .obj _, .str _ => isFalse (fun h => nomatch h)
  | .obj _, .arr _ => isFalse (fun h => nomatch h)

/-- Decidable equality on lists of JSON values. -/
def decEqJsonList : (xs ys : List Json) → Decidable (xs = ys)
  | [], [] => isTrue rfl
  | [], _ :: _ => isFalse (fun h => nomatch h)
  | _ :: _, [] => isFalse (fun h => nomatch h)
  | x :: xs, y :: ys =>
    match decEqJson x y with
    | isFalse h => isFalse (fun he => h (List.head_eq_of_cons_eq he))
    | isTrue h =>
      match decEqJsonList xs ys with
      | isTrue h2 => isTrue (by rw [h, h2])
      | isFalse h2 => isFalse (fun he => h2 (List.tail_eq_of_cons_eq he))

/-- Decidable equality on JSON object field lists. -/
def decEqJsonFields : (fs gs : List (Str × Json)) → Decidable (fs = gs)
  | [], [] => isTrue rfl
  | [], _ :: _ => isFalse (fun h => nomatch h)
  | _ :: _, [] => isFalse (fun h => nomatch h)
  | (k, v) :: fs, (k2, v2) :: gs =>
    if hk : k = k2 then
      match decEqJson v v2 with
      | isFalse h => isFalse (fun he => h (congrArg (fun l => (l.headD (k, v)).2) he))
      | isTrue h =>
        match decEqJsonFields fs gs with
        | isTrue h2 => isTrue (by rw [hk, h, h2])
        | isFalse h2 => isFalse (fun he => h2 (List.tail_eq_of_cons_eq he))
    else
      isFalse (fun he => hk (congrArg (fun l => (l.headD (k, v)).1) he))

end

instance : DecidableEq Json := decEqJson

/-- Decimal digits of a natural number, most significant first (`fuel` bounds
the digit count; it is always called with enough fuel). -/
def natDigitsAux : Nat → Nat → Str
  | 0, _ => []
  | _ + 1, 0 => []
  | fuel + 1, n + 1 => natDigitsAux fuel ((n + 1) / 10) ++ [Char.ofNat (48 + (n + 1) % 10)]

/-- Decimal representation of a natural number. -/
def natDigits (n : Nat) : Str := if n = 0 then [('0')] else natDigitsAux (n + 1) n

/-- Decimal expansion of the fraction `r / den` (`0 < r < den`): one digit per
step, stopping when the remainder vanishes or after `fuel` digits.  (JavaScript
prints at most 17 significant digits of a double; values the handler prints
are small integers, so the cap is never hit by a claim.) -/
def fracDigitsAux : Nat → Nat → Nat → Str
  | 0, _, _ => []
  | _ + 1, 0, _ => []
  | fuel + 1, r + 1, den =>
    Char.ofNat (48 + (r + 1) * 10 / den) :: fracDigitsAux fuel ((r + 1) * 10 % den) den

/-- Decimal representation of a nonnegative rational. -/
def ratToStrNN (q : ℚ) : Str :=
  let n := q.num.toNat
  let d := q.den
  if n % d = 0 then natDigits (n / d)
  else natDigits (n / d) ++ ('.') :: fracDigitsAux 100 (n % d) d

/-- Model of JavaScript `Number::toString` on the rational fragment
(exponent notation for very large/small magnitudes is not modelled; the
handler only prints the clamped card count). -/
def ratToStr (q : ℚ) : Str := if q < 0 then ('-') :: ratToStrNN (-q) else ratToStrNN q

/-- JavaScript `String()` of a number. -/
def numToStr : JSNum → Str
  | .nan => ("NaN").data
  | .inf => ("Infinity").data
  | .ninf => ("-Infinity").data
  | .num q => ratToStr q

/-- Value of a decimal digit character. -/
def digitVal (c : Char) : Option Nat :=
  if '0' ≤ c ∧ c ≤ '9' then some (c.toNat - 48) else none

/-- Greedily consume decimal digits, returning accumulated value, number of
digits consumed, and the remaining characters. -/
def takeDigitsAux : Nat → Nat → Str → Nat × Nat × Str
  | acc, cnt, [] => (acc, cnt, [])
  | acc, cnt, c :: rest =>
    match digitVal c with
    | some d => takeDigitsAux (acc * 10 + d) (cnt + 1) rest
    | none => (acc, cnt, c :: rest)

/-- Value of a digit character in the given radix (digits and letters). -/
def radixDigitVal (radix : Nat) (c : Char) : Option Nat :=
  let v : Option Nat :=
    if '0' ≤ c ∧ c ≤ '9' then some (c.toNat - 48)
    else if 'a' ≤ c ∧ c ≤ 'z' then some (c.toNat - 97 + 10)
    else if 'A' ≤ c ∧ c ≤ 'Z' then some (c.toNat - 65 + 10)
    else none
  match v with
  | some d => if d < radix then some d else none
  | none => none

/-- Consume the entire remaining string as digits of the given radix
(at least one digit required). -/
def takeRadixAux (radix : Nat) : Nat → Nat → Str → Option Nat
  | acc, cnt, [] => if cnt = 0 then none else some acc
  | acc, cnt, c :: rest =>
    match radixDigitVal radix c with
    | some d => takeRadixAux radix (acc * radix + d) (cnt + 1) rest
    | none => none

/-- Exponent suffix of a JavaScript string numeric literal (the whole rest of
the string must be the exponent). -/
def expDigits (base : ℚ) (sign : Int) (t : Str) : Option ℚ :=
  match takeDigitsAux 0 0 t with
  | (ev, ec, r) =>
    if ec = 0 ∨ ¬r.isEmpty then none
    else some (base * (10 : ℚ) ^ (sign * (ev : Int)))

/-- Optional exponent part after a mantissa in a string numeric literal. -/
def parseExpPart (base : ℚ) : Str → Option ℚ
  | [] => some base
  | 'e' :: rest =>
    match rest with
    | '+' :: r2 => expDigits base 1 r2
    | '-' :: r2 => expDigits base (-1) r2
    | r2 => expDigits base 1 r2
  | 'E' :: rest =>
    match rest with
    | '+' :: r2 => expDigits base 1 r2
    | '-' :: r2 => expDigits base (-1) r2
    | r2 => expDigits base 1 r2
  | _ => none

/-- Unsigned decimal string literal: `digits [. digits] [exp]` or
`. digits [exp]`; the whole string must be consumed. -/
def parseUnsignedDec (t : Str) : Option ℚ :=
  match t with
  | '.' :: rest =>
    match takeDigitsAux 0 0 rest with
    | (fv, fc, r1) =>
      if fc = 0 then none else parseExpPart ((fv : ℚ) / 10 ^ fc) r1
  | _ =>
    match takeDigitsAux 0 0 t with
    | (iv, ic, r1) =>
      if ic = 0 then none
      else
        match r1 with
        | '.' :: rest =>
          match takeDigitsAux 0 0 rest with
          | (fv, fc, r2) => parseExpPart ((iv : ℚ) + (fv : ℚ) / 10 ^ fc) r2
        | _ => parseExpPart (iv : ℚ) r1

/-- Signed part of a JavaScript string-to-number conversion (`Infinity` or a
decimal literal; radix prefixes are not allowed after a sign). -/
def strToNumSigned (sign : Int) (t : Str) : JSNum :=
  if t = ("Infinity").data then (if sign = 1 then .inf else .ninf)
  else
    match parseUnsignedDec t with
    | some q => .num ((sign : ℚ) * q)
    | none => .nan

/-- Model of ECMAScript `ToNumber` on strings: trim, empty string is `0`,
optionally signed decimal or `Infinity`, or an unsigned `0x`/`0o`/`0b`
radix literal; anything else is `NaN`. -/
def strToNum (s : Str) : JSNum :=
  let t := jsTrim s
  if t.isEmpty then .num 0
  else
    match t with
    | '0' :: 'x' :: r => (takeRadixAux 16 0 0 r).elim .nan (fun n => .num n)
    | '0' :: 'X' :: r => (takeRadixAux 16 0 0 r).elim .nan (fun n => .num n)
    | '0' :: 'o' :: r => (takeRadixAux 8 0 0 r).elim .nan (fun n => .num n)
    | '0' :: 'O' :: r => (takeRadixAux 8 0 0 r).elim .nan (fun n => .num n)
    | '0' :: 'b' :: r => (takeRadixAux 2 0 0 r).elim .nan (fun n => .num n)
    | '0' :: 'B' :: r => (takeRadixAux 2 0 0 r).elim .nan (fun n => .num n)
    | '+' :: r => strToNumSigned 1 r
    | '-' :: r => strToNumSigned (-1) r
    | _ => strToNumSigned 1 t

mutual

/-- JavaScript `String()` on a JSON runtime value. -/
def jsToString : Json → Str
  | .null => ("null").data
  | .bool true => ("true").data
  | .bool false => ("false").data
  | .num q => ratToStr q
  | .str s => s
  | .arr xs => joinJsonElems xs
  | .obj _ => ("[object Object]").data

/-- `Array.prototype.toString` = `join(",")`. -/
def joinJsonElems : List Json → Str
  | [] => []
  | [x] => jsonElemStr x
  | x :: y :: rest => jsonElemStr x ++ (',') :: joinJsonElems (y :: rest)

/-- String of one array element inside a join: `null` prints as the empty
string, everything else as `String()` of the value. -/
def jsonElemStr : Json → Str
  | .null => []
  | .bool true => ("true").data
  | .bool false => ("false").data
  | .num q => ratToStr q
  | .str s => s
  | .arr xs => joinJsonElems xs
  | .obj _ => ("[object Object]").data

end

/-- ECMAScript `ToNumber` on a JSON runtime value (objects and arrays go
through their string conversion). -/
def jsToNumber : Json → JSNum
  | .null => .num 0
  | .bool b => .num (if b then 1 else 0)
  | .num q => .num q
  | .str s => strToNum s
  | .arr xs => strToNum (joinJsonElems xs)
  | .obj fs => strToNum (jsToString (.obj fs))

/-- Property access `v?.k`: defined fields of objects only; lookup takes the
last binding of a duplicated key, matching `JSON.parse` object semantics. -/
def jsGet : Json → Str → Option Json
  | .obj fs, k => ((fs.reverse).find? (fun p => p.1 == k)).map (fun p => p.2)
  | _, _ => none

/-- The `??` operator applied to an optional property: `null` and missing
both fall back to the default. -/
def jsCoalesce (o : Option Json) (d : Json) : Json :=
  match o with
  | none => d
  | some .null => d
  | some v => v

/-- JavaScript falsiness of a JSON runtime value. -/
def jsFalsy : Json → Bool
  | .null => true
  | .bool b => !b
  | .num q => q == 0
  | .str s => s.isEmpty
  | _ => false

/-- Falsiness of an optional value (`undefined` is falsy). -/
def jsFalsyOpt : Option Json → Bool
  | none => true
  | some v => jsFalsy v

/-- `v?.[0]`: element 0 of an array, property `"0"` of an object, first
character of a string, `undefined` otherwise. -/
def jsIndexZero : Json → Option Json
  | .arr xs => xs.head?
  | .obj fs => jsGet (.obj fs) (("0").data)
  | .str s => (s.head?).map (fun c => .str [c])
  | _ => none

/-- JSON whitespace (as accepted between tokens by `JSON.parse`). -/
def skipJsonWs (l : Str) : Str :=
  l.dropWhile (fun c => c = ' ' || c = '\t' || c = '\n' || c = '\r')

/-- Body of a JSON string literal after the opening quote: returns the decoded
characters and the rest after the closing quote.  `\uXXXX` escapes become the
code point directly (surrogate pairs are not recombined; no claim exercises
unicode escapes). -/
def parseJStringBody : Str → Option (Str × Str)
  | [] => none
  | '"' :: rest => some ([], rest)
  | '\\' :: esc =>
    match esc with
    | '"' :: r => (parseJStringBody r).map (fun p => ('"' :: p.1, p.2))
    | '\\' :: r => (parseJStringBody r).map (fun p => ('\\' :: p.1, p.2))
    | '/' :: r => (parseJStringBody r).map (fun p => ('/' :: p.1, p.2))
    | 'b' :: r => (parseJStringBody r).map (fun p => ('\x08' :: p.1, p.2))
    | 'f' :: r => (parseJStringBody r).map (fun p => ('\x0c' :: p.1, p.2))
    | 'n' :: r => (parseJStringBody r).map (fun p => ('\n' :: p.1, p.2))
    | 'r' :: r => (parseJStringBody r).map (fun p => ('\r' :: p.1, p.2))
    | 't' :: r => (parseJStringBody r).map (fun p => ('\t' :: p.1, p.2))
    | 'u' :: h1 :: h2 :: h3 :: h4 :: r =>
      match radixDigitVal 16 h1, radixDigitVal 16 h2, radixDigitVal 16 h3, radixDigitVal 16 h4 with
      | some a, some b, some c, some d =>
        (parseJStringBody r).map (fun p => (Char.ofNat (a * 4096 + b * 256 + c * 16 + d) :: p.1, p.2))
      | _, _, _, _ => none
    | _ => none
  | c :: rest =>
    if c.toNat < 32 then none
    else (parseJStringBody rest).map (fun p => (c :: p.1, p.2))

/-- Exponent digits of a JSON number literal. -/
def parseJsonExpDigits (m : ℚ) (sign : Int) (t : Str) : Option (ℚ × Str) :=
  match takeDigitsAux 0 0 t with
  | (ev, ec, r) =>
    if ec = 0 then none else some (m * (10 : ℚ) ^ (sign * (ev : Int)), r)

/-- Optional exponent of a JSON number literal. -/
def parseJsonExp (m : ℚ) : Str → Option (ℚ × Str)
  | 'e' :: r =>
    match r with
    | '+' :: r2 => parseJsonExpDigits m 1 r2
    | '-' :: r2 => parseJsonExpDigits m (-1) r2
    | r2 => parseJsonExpDigits m 1 r2
  | 'E' :: r =>
    match r with
    | '+' :: r2 => parseJsonExpDigits m 1 r2
    | '-' :: r2 => parseJsonExpDigits m (-1) r2
    | r2 => parseJsonExpDigits m 1 r2
  | t => some (m, t)

/-- Optional fraction and exponent after the integer part of a JSON number. -/
def parseJsonFracExp (ip : ℚ) : Str → Option (ℚ × Str)
  | '.' :: r =>
    match takeDigitsAux 0 0 r with
    | (fv, fc, r2) =>
      if fc = 0 then none else parseJsonExp (ip + (fv : ℚ) / 10 ^ fc) r2
  | t => parseJsonExp ip t

/-- Unsigned JSON number: `0` or a nonzero-leading digit run, then optional
fraction and exponent (strict JSON grammar: no leading `+`, no bare `.`). -/
def parseJsonUnsigned : Str → Option (ℚ × Str)
  | [] => none
  | '0' :: r => parseJsonFracExp 0 r
  | c :: r =>
    if '1' ≤ c ∧ c ≤ '9' then
      match takeDigitsAux (c.toNat - 48) 1 r with
      | (v, _, r2) => parseJsonFracExp (v : ℚ) r2
    else none

/-- JSON number literal with optional leading minus. -/
def parseJsonNumber : Str → Option (ℚ × Str)
  | '-' :: r => (parseJsonUnsigned r).map (fun p => (-p.1, p.2))
  | t => parseJsonUnsigned t

mutual

/-- One JSON value at the head of the input (leading whitespace already
skipped); returns the value and the unconsumed rest.  `fuel` bounds the
recursion and is always supplied amply by `jsonParse`. -/
def parseVal : Nat → Str → Option (Json × Str)
  | 0, _ => none
  | fuel + 1, t =>
    match t with
    | 't' :: r => if startsWithStr r (("rue").data) then some (.bool true, r.drop 3) else none
    | 'f' :: r => if startsWithStr r (("alse").data) then some (.bool false, r.drop 4) else none
    | 'n' :: r => if startsWithStr r (("ull").data) then some (.null, r.drop 3) else none
    | '"' :: r => (parseJStringBody r).map (fun p => (.str p.1, p.2))
    | '[' :: r =>
      match skipJsonWs r with
      | ']' :: r2 => some (.arr [], r2)
      | r1 => (parseElems fuel r1).map (fun p => (.arr p.1, p.2))
    | '{' :: r =>
      match skipJsonWs r with
      | '}' :: r2 => some (.obj [], r2)
      | r1 => (parseMembers fuel r1).map (fun p => (.obj p.1, p.2))
    | _ => (parseJsonNumber t).map (fun p => (.num p.1, p.2))

/-- Comma-separated JSON array elements up to the closing bracket. -/
def parseElems : Nat → Str → Option (List Json × Str)
  | 0, _ => none
  | fuel + 1, t =>
    match parseVal fuel t with
    | none => none
    | some (v, r) =>
      match skipJsonWs r with
      | ',' :: r2 => (parseElems fuel (skipJsonWs r2)).map (fun p => (v :: p.1, p.2))
      | ']' :: r2 => some ([v], r2)
      | _ => none

/-- Comma-separated JSON object members up to the closing brace. -/
def parseMembers : Nat → Str → Option (List (Str × Json) × Str)
  | 0, _ => none
  | fuel + 1, t =>
    match t with
    | '"' :: r =>
      match parseJStringBody r with
      | none => none
      | some (k, r1) =>
        match skipJsonWs r1 with
        | ':' :: r2 =>
          match parseVal fuel (skipJsonWs r2) with
          | none => none
          | some (v, r3) =>
            match skipJsonWs r3 with
            | ',' :: r4 => (parseMembers fuel (skipJsonWs r4)).map (fun p => ((k, v) :: p.1, p.2))
            | '}' :: r4 => some ([(k, v)], r4)
            | _ => none
        | _ => none
    | _ => none

end

/-- Model of `JSON.parse` on a string: one JSON value surrounded by optional
whitespace, the whole input consumed; `none` models a thrown `SyntaxError`. -/
def jsonParse (s : Str) : Option Json :=
  match parseVal (2 * s.length + 2) (skipJsonWs s) with
  | some (v, rest) => if (skipJsonWs rest).isEmpty then some v else none
  | none => none

/-- Errors thrown inside the generation path: `malformed` is the extractor's
own `Error("Model did not return valid JSON")`, `syntaxErr` a `JSON.parse`
`SyntaxError`, `typeErr` a runtime `TypeError` (non-string reaching a string
method). -/
inductive JsErr where
  | malformed
  | syntaxErr
  | typeErr
deriving DecidableEq, Repr

instance : DecidableEq (Except JsErr Json) := fun a b =>
  match a, b with
  | .ok x, .ok y => if h : x = y then isTrue (by rw [h]) else isFalse (fun he => h (Except.ok.inj he))
  | .error x, .error y => if h : x = y then isTrue (by rw [h]) else isFalse (fun he => h (Except.error.inj he))
  | .ok _, .error _ => isFalse (fun h => nomatch h)
  | .error _, .ok _ => isFalse (fun h => nomatch h)

/-- The fenced-block match of `extractJson`'s regex
`/```json\s*([\s\S]*?)\s*```/i`: the capture group of the leftmost match,
i.e. the text between the first (case-insensitive) ` ```json ` and the next
` ``` `, with surrounding whitespace stripped (`none` when the regex does not
match).  Note the next ` ``` ` always exists when a later ` ```json ` opener
does, so leftmost-match backtracking never moves the start. -/
def fenceMatch (text : Str) : Option Str :=
  match findSubIdx (lowerStr text) (("```json").data) with
  | none => none
  | some i =>
    match findSubIdx (text.drop (i + 7)) (("```").data) with
    | none => none
    | some p => some (jsTrim ((text.drop (i + 7)).take p))

/-- Is the character an opening JSON bracket (`[` or `{`)? -/
def isOpenBr (c : Char) : Bool := c = '[' || c = '{'

/-- Is the character a closing JSON bracket (`]` or `}`)? -/
def isCloseBr (c : Char) : Bool := c = ']' || c = '}'

/-- `Math.min(...[text.indexOf("["), text.indexOf("{")].filter((n) => n !== -1))`:
`none` models the empty `Math.min()` (`Infinity`). -/
def firstBracket (t : Str) : Option Nat :=
  match indexOfChar t '[', indexOfChar t '{' with
  | none, none => none
  | some a, none => some a
  | none, some b => some b
  | some a, some b => some (min a b)

/-- `Math.max(text.lastIndexOf("]"), text.lastIndexOf("}"))`. -/
def lastBracket (t : Str) : Int := max (lastIndexOfInt t ']') (lastIndexOfInt t '}')

/-- Bracket-scan fallback of `extractJson`: parse from the first `[`/`{` to the
last `]`/`}` inclusive when the latter lies strictly after the former,
otherwise throw the malformed-response error. -/
def bracketScan (t : Str) : Except JsErr Json :=
  match firstBracket t with
  | some f =>
    if (f : Int) < lastBracket t then
      match jsonParse (sliceStr t f ((lastBracket t).toNat + 1)) with
      | some v => .ok v
      | none => .error .syntaxErr
    else .error .malformed
  | none => .error .malformed

/-- `extractJson`: prefer the interior of a fenced ` ```json ` block when the
regex matches with a truthy (nonempty) capture; otherwise fall back to the
bracket scan. -/
def extractJson (text : Str) : Except JsErr Json :=
  match fenceMatch text with
  | some interior =>
    if interior.isEmpty then bracketScan text
    else
      match jsonParse interior with
      | some v => .ok v
      | none => .error .syntaxErr
  | none => bracketScan text

/-- Mode-specific instruction sentence for a question bank. -/
def questionsRule : Str :=
  ("The input is a QUESTION BANK / practice set. Create flashcards where the FRONT is the question and the BACK is the correct answer/explanation.").data

/-- Mode-specific instruction sentence for short notes. -/
def shortNotesRule : Str :=
  ("The input is SHORT NOTES / summaries. Create flashcards where the FRONT is a short prompt (term, heading, key idea) and the BACK is the explanation/steps/formula.").data

/-- Auto-detection instruction sentence. -/
def autoRule : Str :=
  ("Auto-detect: if the input contains many questions (\"?\", Q:, MCQ, etc.) treat it as a question bank; otherwise treat it as notes.").data

/-- The `modeRules` ternary of `buildFlashcardPrompt` (the handler passes the
request's `mode` through as an arbitrary string, so the parameter is `Str`). -/
def modeRules (mode : Str) : Str :=
  if mode = ("questions").data then questionsRule
  else if mode = ("short_notes").data then shortNotesRule
  else autoRule

/-- Template text before the interpolated `count`. -/
def promptPart1 : Str :=
  ("You are an expert flashcard creator.\nReturn ONLY valid JSON, no extra text.\n\nTask:\n- Create ").data

/-- Template text between `count` and the mode rules. -/
def promptPart2 : Str :=
  (" high-quality flashcards.\n- Each flashcard MUST feel like a real flashcard: short, testable FRONT and a complete BACK.\n\n").data

/-- Template text between the mode rules and the interpolated `style`. -/
def promptPart3 : Str :=
  ("\n\nOutput schema (exact):\n\x7b\n  \"title\": string,\n  \"flashcards\": [\n    \x7b \"question\": string, \"answer\": string, \"tags\": string[] \x7d\n  ]\n\x7d\n\nQuality rules:\n- FRONT (question) should be short and specific (max ~140 chars if possible).\n- BACK (answer) should be structured and correct; use short bullet-like lines as plain text if needed.\n- Avoid duplicate cards.\n- If content is formula/steps, include them cleanly.\n- Tags: 0-4 short tags per card.\n- No markdown, no code fences.\n- Style: ").data

/-- Template text between `style` and the appended input text. -/
def promptPart4 : Str :=
  (" (balanced = mix of definitions+concepts, exam = more application, simple = easy language)\n\nINPUT:\n").data

/-- `buildFlashcardPrompt(userText, count, style, mode)`: the template literal
with `count`, the mode rules, `style` and the raw input interpolated, then
`.trim()`ed. -/
def buildFlashcardPrompt (userText : Str) (count : JSNum) (style mode : Str) : Str :=
  jsTrim (promptPart1 ++ numToStr count ++ promptPart2 ++ modeRules mode ++
    promptPart3 ++ style ++ promptPart4 ++ userText)

/-- A cleaned flashcard. -/
structure Flashcard where
  question : Str
  answer : Str
  tags : List Str
deriving DecidableEq, Repr

/-- The `.map` step of the cleaning pipeline: coerce question/answer to
trimmed strings (missing/null becomes the empty string), keep tags only when
they form an array, stringifying each entry and capping at 6. -/
def cleanOne (c : Json) : Flashcard :=
  { question := jsTrim (jsToString (jsCoalesce (jsGet c (("question").data)) (.str [])))
    answer := jsTrim (jsToString (jsCoalesce (jsGet c (("answer").data)) (.str [])))
    tags :=
      match jsGet c (("tags").data) with
      | some (.arr ts) => (ts.map jsToString).take 6
      | _ => [] }

/-- `Array.prototype.slice(0, count)` for a JavaScript-number `count`:
the end index goes through `ToIntegerOrInfinity` (NaN to 0, truncation toward
zero, negative values relative to the length). -/
def jsSliceTo (count : JSNum) (l : List α) : List α :=
  match count with
  | .nan => []
  | .ninf => []
  | .inf => l
  | .num q =>
    let t : Int := q.num.tdiv (q.den : Int)
    if t < 0 then l.take ((l.length : Int) + t).toNat else l.take t.toNat

/-- The `cleaned` pipeline of the handler: map, drop entries with a falsy
(empty) question or answer, truncate to `count`. -/
def cleanCards (cards : List Json) (count : JSNum) : List Flashcard :=
  jsSliceTo count ((cards.map cleanOne).filter (fun f => !f.question.isEmpty && !f.answer.isEmpty))

/-- Cleaning step as the specification words it: coerce each entry's question
and answer to trimmed strings, take tags as an array of strings capped at 6
entries (empty array when tags is not an array), drop entries whose trimmed
question or answer is empty, then truncate to the first `count` surviving
entries in their original order. -/
def cleanSpec (cards : List Json) (count : Nat) : List Flashcard :=
  ((cards.map (fun c =>
      { question := jsTrim (jsToString (jsCoalesce (jsGet c (("question").data)) (.str [])))
        answer := jsTrim (jsToString (jsCoalesce (jsGet c (("answer").data)) (.str [])))
        tags :=
          match jsGet c (("tags").data) with
          | some (.arr ts) => (ts.map jsToString).take 6
          | _ => [] : Flashcard })).filter
    (fun f => decide (f.question ≠ [] ∧ f.answer ≠ []))).take count

/-- User plan. -/
inductive Plan where
  | free
  | premium
deriving DecidableEq, Repr

/-- External calls initiated by one request, in order: identity lookup,
profile read, usage read, completion call (carrying the prompt sent), the
generation-history insert and the usage upsert (carrying the new counter). -/
inductive Effect where
  | getUser
  | profileRead
  | usageRead
  | completionCall (prompt : Str)
  | insertGeneration
  | upsertUsage (next : JSNum)
deriving DecidableEq, Repr

/-- Outcome of the completion-service call: a non-2xx HTTP failure with its
status and body text, or a 2xx reply whose body text is then JSON-parsed. -/
inductive GroqResult where
  | httpError (status : Nat) (bodyText : Str)
  | ok (bodyText : Str)
deriving DecidableEq, Repr

/-- One request together with the responses of the external collaborators it
may consult: environment configuration, the identity service's answer for the
bearer token, the profile row's `plan` field, the usage row's
`flashcards_used` field, and the completion service's reply.  `body` is the
request body as parsed by `req.json()` (its `catch` turns an unparsable body
into `{}`, also a `Json` value). -/
structure HandlerInput where
  body : Json
  authHeader : Option Str
  groqApiKey : Option Str
  supabaseUrl : Option Str
  serviceRoleKey : Option Str
  getUserResult : Option Str
  profilePlan : Option Json
  usageUsed : Option Json
  groqResult : GroqResult

/-- The handler's terminal responses, one constructor per `NextResponse.json`
site, carrying the dynamic payload fields the claims mention. -/
inductive HResponse where
  | notesRequired
  | missingGroqKey
  | missingSupabaseEnv
  | unauthorized
  | quotaExceeded (used : JSNum) (limit : Nat)
  | groqFailed (status : Nat) (details : Str)
  | noResponseFromGroq
  | success (title : Str) (flashcards : List Flashcard)
  | serverError (e : JsErr)
deriving DecidableEq, Repr

/-- HTTP status of each response. -/
def statusOf : HResponse → Nat
  | .notesRequired => 400
  | .missingGroqKey => 500
  | .missingSupabaseEnv => 500
  | .unauthorized => 401
  | .quotaExceeded _ _ => 402
  | .groqFailed s _ => s
  | .noResponseFromGroq => 502
  | .success _ _ => 200
  | .serverError _ => 500

/-- `String(body?.notes ?? "").trim()`. -/
def notesOf (body : Json) : Str :=
  jsTrim (jsToString (jsCoalesce (jsGet body (("notes").data)) (.str [])))

/-- `Math.max(3, Math.min(50, Number(body?.count ?? 12)))`. -/
def countOf (body : Json) : JSNum :=
  jsMax (.num 3) (jsMin (.num 50) (jsToNumber (jsCoalesce (jsGet body (("count").data)) (.num 12))))

/-- `String(body?.style ?? "balanced")`. -/
def styleOf (body : Json) : Str :=
  jsToString (jsCoalesce (jsGet body (("style").data)) (.str (("balanced").data)))

/-- `String(body?.mode ?? "auto")` (the cast to the mode union is a
compile-time assertion only; no runtime validation happens). -/
def modeOf (body : Json) : Str :=
  jsToString (jsCoalesce (jsGet body (("mode").data)) (.str (("auto").data)))

/-- Falsiness of an optional environment string (`undefined` or `""`). -/
def strFalsy : Option Str → Bool
  | none => true
  | some s => s.isEmpty

/-- The access token: the authorization header (defaulted to `""`) must start
case-insensitively with `"bearer "`; the token is the rest, else `""`. -/
def accessTokenOf (h : Option Str) : Str :=
  let ah := h.getD []
  if startsWithStr (lowerStr ah) (("bearer ").data) then ah.drop 7 else []

/-- `data?.choices?.[0]?.message?.content`. -/
def groqContent (data : Json) : Option Json :=
  (((jsGet data (("choices").data)).bind jsIndexZero).bind
    (fun m => jsGet m (("message").data))).bind
    (fun m => jsGet m (("content").data))

/-- `JSON.parse(text)` with `extractJson(text)` as the `catch` fallback.
`JSON.parse` stringifies a non-string argument; if that parse fails and the
value is not a string, `extractJson`'s `text.match` raises a `TypeError`. -/
def parseContent (v : Json) : Except JsErr Json :=
  match jsonParse (jsToString v) with
  | some p => .ok p
  | none =>
    match v with
    | .str s => extractJson s
    | _ => .error .typeErr

/-- The tail of the handler from the prompt build onwards: completion call,
response extraction/validation, cleaning, fire-and-forget persistence, and
the 200 response.  `eff` is the effect trace accumulated so far. -/
def generatePhase (i : HandlerInput) (notes : Str) (count : JSNum) (style mode : Str)
    (plan : Plan) (usedBefore : JSNum) (eff : List Effect) : HResponse × List Effect :=
  let prompt := buildFlashcardPrompt notes count style mode
  let eff1 := eff ++ [.completionCall prompt]
  match i.groqResult with
  | .httpError status details => (.groqFailed status details, eff1)
  | .ok bodyText =>
    match jsonParse bodyText with
    | none => (.serverError .syntaxErr, eff1)
    | some data =>
      match groqContent data with
      | none => (.noResponseFromGroq, eff1)
      | some v =>
        if jsFalsy v then (.noResponseFromGroq, eff1)
        else
          match parseContent v with
          | .error e => (.serverError e, eff1)
          | .ok parsed =>
            let title := jsToString (jsCoalesce (jsGet parsed (("title").data)) (.str (("Flashcards").data)))
            let cards :=
              match jsGet parsed (("flashcards").data) with
              | some (.arr xs) => xs
              | _ => []
            let cleaned := cleanCards cards count
            (.success title cleaned,
              eff1 ++ [.insertGeneration] ++
                (if plan = .free then [.upsertUsage (jsAdd usedBefore (.num cleaned.length))] else []))

/-- The route handler `POST`, as a pure function from the request and its
collaborators' answers to the terminal response and the ordered trace of
external calls made. -/
def POST (i : HandlerInput) : HResponse × List Effect :=
  let notes := notesOf i.body
  let count := countOf i.body
  let style := styleOf i.body
  let mode := modeOf i.body
  if notes.isEmpty then (.notesRequired, [])
  else if strFalsy i.groqApiKey then (.missingGroqKey, [])
  else if strFalsy i.supabaseUrl || strFalsy i.serviceRoleKey then (.missingSupabaseEnv, [])
  else if (accessTokenOf i.authHeader).isEmpty then (.unauthorized, [])
  else
    match i.getUserResult with
    | none => (.unauthorized, [.getUser])
    | some _uid =>
      let plan : Plan := if i.profilePlan = some (.str (("premium").data)) then .premium else .free
      if plan = .free then
        let used := jsToNumber (jsCoalesce i.usageUsed (.num 0))
        if jsGtBool (jsAdd used count) (.num 100) then
          (.quotaExceeded used 100, [.getUser, .profileRead, .usageRead])
        else generatePhase i notes count style mode .free used [.getUser, .profileRead, .usageRead]
      else generatePhase i notes count style mode .premium (.num 0) [.getUser, .profileRead]

/-- `s` occurs verbatim as a contiguous substring of `l`. -/
def containsSub (l s : Str) : Prop := ∃ a b, l = a ++ s ++ b

/-- A well-formed authorized free-plan request: 95 flashcards already used,
10 more requested. -/
def quotaRejectInput : HandlerInput :=
  { body := .obj [(("notes").data, .str ("some notes").data), (("count").data, .num 10)]
    authHeader := some (("Bearer tok123").data)
    groqApiKey := some (("gk").data)
    supabaseUrl := some (("http://sb").data)
    serviceRoleKey := some (("srk").data)
    getUserResult := some (("user-1").data)
    profilePlan := none
    usageUsed := some (.num 95)
    groqResult := .httpError 500 (("upstream down").data) }

/-- Same request with only 5 flashcards requested. -/
def quotaPassInput : HandlerInput :=
  { quotaRejectInput with
    body := .obj [(("notes").data, .str ("some notes").data), (("count").data, .num 5)] }

/-- Same request with the `Authorization` header absent. -/
def noTokenInput : HandlerInput :=
  { quotaRejectInput with authHeader := none }

/-- A valid request whose `mode` is the arbitrary invalid string `"garbage"`,
with a completion reply carrying one well-formed flashcard. -/
def garbageModeInput : HandlerInput :=
  { quotaRejectInput with
    body := .obj [(("notes").data, .str ("n").data), (("count").data, .num 5),
                  (("mode").data, .str ("garbage").data)]
    usageUsed := some (.num 0)
    groqResult := .ok (("\x7b\"choices\":[\x7b\"message\":\x7b\"content\":\"\x7b\\\"title\\\":\\\"T\\\",\\\"flashcards\\\":[\x7b\\\"question\\\":\\\"Q\\\",\\\"answer\\\":\\\"A\\\"\x7d]\x7d\"\x7d\x7d]\x7d").data) }

/-- An empty request body (no notes): the handler rejects it with 400. -/
def emptyBodyInput : HandlerInput :=
  { quotaRejectInput with body := .obj [] }

/-- Request body whose `count` is the non-numeric string `"abc"`. -/
def nanCountBody : Json := .obj [(("count").data, .str ("abc").data)]

/-- Text with a fenced JSON block whose interior is empty, followed by
bracketed JSON. -/
def emptyFenceText : Str := ("```json``` [1]").data

/-- Text with a fenced JSON block with nonempty valid interior. -/
def okFenceText : Str := ("```json [2] ```").data

/-- The specification's unfenced extractor example. -/
def unfencedText : Str := ("Here is the result: \x7b\"a\":1\x7d thanks").data

/-- Text containing none of the four bracket characters. -/
def bracketFreeText : Str := ("no brackets here at all").data

/-- The specification's first cleaning example: one card with an empty answer,
one valid card. -/
def cleanExample1 : List Json :=
  [.obj [(("question").data, .str ("Q1").data), (("answer").data, .str [])],
   .obj [(("question").data, .str ("Q2").data), (("answer").data, .str ("A2").data)]]

/-- The specification's second cleaning example: ten valid cards. -/
def cleanExample2 : List Json :=
  (List.range 10).map (fun k =>
    .obj [(("question").data, .str (('Q') :: natDigits k)),
          (("answer").data, .str (('A') :: natDigits k))])

/-! ### Helper lemmas -/

theorem trimLeft_append_keep (X Z : Str) (hk : X.dropWhile jsWs = X) (hne : X ≠ []) :
    trimLeft (X ++ Z) = X ++ Z := by
  unfold trimLeft
  rw [List.dropWhile_append, hk]
  simp [List.isEmpty_iff, hne]

theorem trimRight_append_keep (X Z : Str) (c : Char) (hc : c ∈ Z) (hw : jsWs c = false) :
    trimRight (X ++ Z) = X ++ trimRight Z := by
  unfold trimRight
  rw [List.reverse_append, List.dropWhile_append]
  have hne : (Z.reverse.dropWhile jsWs).isEmpty = false := by
    rw [List.isEmpty_eq_false]
    intro h0
    have hw2 := List.dropWhile_eq_nil_iff.mp h0 c (List.mem_reverse.mpr hc)
    rw [hw] at hw2
    exact absurd hw2 (by simp)
  rw [if_neg (by rw [hne]; simp)]
  simp [List.reverse_append]

theorem prompt_contains_modeRules (text : Str) (count : JSNum) (style m : Str) :
    containsSub (buildFlashcardPrompt text count style m) (modeRules m) := by
  unfold buildFlashcardPrompt jsTrim containsSub
  have e1 : promptPart1 ++ numToStr count ++ promptPart2 ++ modeRules m ++ promptPart3 ++
      style ++ promptPart4 ++ text =
      promptPart1 ++ (numToStr count ++ (promptPart2 ++ (modeRules m ++ (promptPart3 ++
        (style ++ (promptPart4 ++ text)))))) := by
    simp [List.append_assoc]
  rw [e1, trimLeft_append_keep _ _ (by decide) (by decide)]
  have e2 : promptPart1 ++ (numToStr count ++ (promptPart2 ++ (modeRules m ++ (promptPart3 ++
      (style ++ (promptPart4 ++ text)))))) =
      (promptPart1 ++ (numToStr count ++ (promptPart2 ++ modeRules m))) ++
        (promptPart3 ++ (style ++ (promptPart4 ++ text))) := by
    simp [List.append_assoc]
  rw [e2, trimRight_append_keep _ _ 'O' (List.mem_append_left _ (by decide)) (by decide)]
  exact ⟨promptPart1 ++ (numToStr count ++ promptPart2),
    trimRight (promptPart3 ++ (style ++ (promptPart4 ++ text))), by simp [List.append_assoc]⟩

/-! ### Claim theorems -/

/-- C8: for every input text, count and style, the built prompt contains the
question-bank instruction sentence verbatim when mode is `"questions"`, the
short-notes sentence when mode is `"short_notes"`, and the auto-detection
sentence when mode is `"auto"`. -/
theorem prompt_mode_instruction_sentences (text : Str) (count : JSNum) (style : Str) :
    containsSub (buildFlashcardPrompt text count style (("questions").data)) questionsRule
    ∧ containsSub (buildFlashcardPrompt text count style (("short_notes").data)) shortNotesRule
    ∧ containsSub (buildFlashcardPrompt text count style (("auto").data)) autoRule := by
  refine ⟨?_, ?_, ?_⟩
  · have h := prompt_contains_modeRules text count style (("questions").data)
    rwa [show modeRules (("questions").data) = questionsRule from by
      unfold modeRules; rw [if_pos rfl]] at h
  · have h := prompt_contains_modeRules text count style (("short_notes").data)
    rwa [show modeRules (("short_notes").data) = shortNotesRule from by
      unfold modeRules; rw [if_neg (by decide), if_pos rfl]] at h
  · have h := prompt_contains_modeRules text count style (("auto").data)
    rwa [show modeRules (("auto").data) = autoRule from by
      unfold modeRules; rw [if_neg (by decide), if_neg (by decide)]] at h

/-- C8 witness at concrete inputs. -/
theorem prompt_mode_instruction_sentences_witness :
    containsSub (buildFlashcardPrompt (("my notes").data) (.num 12) (("balanced").data)
      (("questions").data)) questionsRule :=
  (prompt_mode_instruction_sentences (("my notes").data) (.num 12) (("balanced").data)).1

/-- C9: a `mode` other than `"questions"`/`"short_notes"` — not only
`"auto"`, e.g. `"garbage"` — is never rejected: the prompt builder falls
through to the auto-detection variant, and a full request with
`mode = "garbage"` succeeds with the auto prompt sent upstream. -/
theorem invalid_mode_not_rejected :
    (∀ (text : Str) (count : JSNum) (style m : Str),
        m ≠ ("questions").data → m ≠ ("short_notes").data →
        buildFlashcardPrompt text count style m =
          buildFlashcardPrompt text count style (("auto").data))
    ∧ statusOf (POST garbageModeInput).1 = 200
    ∧ Effect.completionCall (buildFlashcardPrompt (("n").data) (.num 5) (("balanced").data)
        (("auto").data)) ∈ (POST garbageModeInput).2 := by
  refine ⟨?_, by with_unfolding_all decide, by with_unfolding_all decide⟩
  intro text count style m h1 h2
  unfold buildFlashcardPrompt
  rw [show modeRules m = modeRules (("auto").data) from by
    unfold modeRules
    rw [if_neg h1, if_neg h2, if_neg (by decide), if_neg (by decide)]]

/-- C9 witness: `"garbage"` is neither of the two validated modes and yields
the auto prompt. -/
theorem invalid_mode_not_rejected_witness :
    ("garbage").data ≠ ("questions").data ∧
    buildFlashcardPrompt (("n").data) (.num 5) (("balanced").data) (("garbage").data) =
      buildFlashcardPrompt (("n").data) (.num 5) (("balanced").data) (("auto").data) :=
  ⟨by decide, invalid_mode_not_rejected.1 (("n").data) (.num 5) (("balanced").data)
    (("garbage").data) (by decide) (by decide)⟩

/-- C2 (amended): the count used by the handler defaults to 12 when `count`
is missing, and lies in [3, 50] whenever the requested value coerces to a
number; a value that coerces to NaN (e.g. a non-numeric string) propagates
NaN through the clamp instead. -/
theorem count_clamped_into_range (body : Json) :
    (countOf body = .nan ∨ ∃ q : ℚ, countOf body = .num q ∧ 3 ≤ q ∧ q ≤ 50)
    ∧ (jsGet body (("count").data) = none → countOf body = .num 12) := by
  constructor
  · unfold countOf
    rcases h : jsToNumber (jsCoalesce (jsGet body (("count").data)) (.num 12)) with q | _ | _ | _
    · right
      refine ⟨max 3 (min 50 q), by simp [jsMin, jsMax], le_max_left _ _,
        max_le (by norm_num) (min_le_left _ _)⟩
    · left
      simp [jsMin, jsMax]
    · right
      refine ⟨50, by simp [jsMin, jsMax]; norm_num, by norm_num, le_refl _⟩
    · right
      refine ⟨3, by simp [jsMin, jsMax], le_refl _, by norm_num⟩
  · intro h
    unfold countOf
    rw [h]
    with_unfolding_all decide

/-- C2 counterexample: a request body whose `count` is the string `"abc"`
produces NaN, which is not clamped into [3, 50]. -/
theorem count_nonnumeric_string_nan :
    countOf nanCountBody = .nan ∧ ∀ q : ℚ, countOf nanCountBody ≠ .num q := by
  refine ⟨by with_unfolding_all decide, ?_⟩
  intro q h
  rw [show countOf nanCountBody = .nan from by with_unfolding_all decide] at h
  exact absurd h (by simp)

/-- C2 witness: the empty object has no `count`, and the handler uses 12. -/
theorem count_clamped_into_range_witness :
    jsGet (Json.obj []) (("count").data) = none ∧ countOf (Json.obj []) = .num 12 :=
  ⟨by decide, (count_clamped_into_range (Json.obj [])).2 (by decide)⟩

/-- C3: the cleaning step equals the specification's description — coerce
question/answer to trimmed strings, tags an array of strings capped at 6
(empty when not an array), drop entries with empty question or answer,
truncate to the first `count` survivors in original order — and in particular
the two spec examples hold. -/
theorem cleaning_matches_spec :
    (∀ (cards : List Json) (n : Nat), cleanCards cards (.num n) = cleanSpec cards n)
    ∧ cleanCards cleanExample1 (.num 5) =
        [{ question := ("Q2").data, answer := ("A2").data, tags := [] }]
    ∧ cleanCards cleanExample2 (.num 3) =
        [{ question := ("Q0").data, answer := ("A0").data, tags := [] },
         { question := ("Q1").data, answer := ("A1").data, tags := [] },
         { question := ("Q2").data, answer := ("A2").data, tags := [] }] := by
  refine ⟨?_, by with_unfolding_all decide, by with_unfolding_all decide⟩
  intro cards n
  have hslice : ∀ (l : List Flashcard), jsSliceTo (.num (n : ℚ)) l = l.take n := by
    intro l
    simp only [jsSliceTo, Rat.num_natCast, Rat.den_natCast]
    have ht : (n : Int).tdiv ((1 : ℕ) : Int) = (n : Int) := by
      rw [Nat.cast_one, Int.tdiv_one]
    rw [ht, if_neg (by omega), Int.toNat_natCast]
  unfold cleanCards cleanSpec
  rw [hslice]
  have hfil : ∀ f ∈ cards.map cleanOne,
      (!f.question.isEmpty && !f.answer.isEmpty) = decide (f.question ≠ [] ∧ f.answer ≠ []) := by
    intro f _
    by_cases hq : f.question = [] <;> by_cases ha : f.answer = [] <;>
      simp [hq, ha, List.isEmpty_iff, List.isEmpty_eq_false]
  rw [List.filter_congr hfil]
  rfl

/-- C4 counterexample: on `"```json``` [1]"` the regex finds a fenced JSON
block (empty capture), its interior does not parse as JSON, and yet the
extraction succeeds through the bracket-scan fallback — so a found fence is
not always authoritative. -/
theorem fence_empty_interior_falls_through :
    fenceMatch emptyFenceText = some [] ∧ jsonParse [] = none ∧
    extractJson emptyFenceText = .ok (.arr [.num 1]) :=
  ⟨by decide, by decide, by with_unfolding_all decide⟩

/-- C4 (amended): for every text in which the extractor finds a fenced JSON
block with a *nonempty* interior, it parses exactly that interior: the result
is the parse's value, and if the parse fails the whole extraction fails with
the parse error — the bracket-scan fallback is never attempted. -/
theorem fence_nonempty_interior_authoritative (t interior : Str)
    (hf : fenceMatch t = some interior) (hne : interior ≠ []) :
    (∀ v, jsonParse interior = some v → extractJson t = .ok v)
    ∧ (jsonParse interior = none → extractJson t = .error .syntaxErr) := by
  simp only [extractJson, hf]
  rw [if_neg (by simp [List.isEmpty_iff, hne])]
  constructor
  · intro v hv
    rw [hv]
  · intro hv
    rw [hv]

/-- C4 witness: a fence with nonempty valid interior is parsed exactly. -/
theorem fence_nonempty_interior_witness :
    fenceMatch okFenceText = some (("[2]").data) ∧
    extractJson okFenceText = .ok (.arr [.num 2]) :=
  ⟨by decide,
    (fence_nonempty_interior_authoritative okFenceText (("[2]").data) (by decide)
      (by decide)).1 (.arr [.num 2]) (by decide)⟩

/-- C7: a request whose `Authorization` header carries no bearer token but is
otherwise valid (nonempty notes, all configuration present) is answered 401
with an empty effect trace: no identity, storage or completion call happens. -/
theorem missing_bearer_rejected_before_calls (i : HandlerInput)
    (hn : (notesOf i.body).isEmpty = false)
    (hg : strFalsy i.groqApiKey = false)
    (hs : strFalsy i.supabaseUrl = false)
    (hk : strFalsy i.serviceRoleKey = false)
    (ht : (accessTokenOf i.authHeader).isEmpty = true) :
    POST i = (.unauthorized, []) ∧ statusOf (POST i).1 = 401 := by
  have h1 : POST i = (.unauthorized, []) := by
    simp [POST, hn, hg, hs, hk, ht]
  exact ⟨h1, by rw [h1]; rfl⟩

/-- C7 witness: the request with no `Authorization` header at all. -/
theorem missing_bearer_rejected_witness :
    (accessTokenOf noTokenInput.authHeader).isEmpty = true ∧
    POST noTokenInput = (.unauthorized, []) :=
  ⟨by decide,
    (missing_bearer_rejected_before_calls noTokenInput (by decide) (by decide) (by decide)
      (by decide) (by decide)).1⟩

theorem indexOfChar_eq_none_of_not_mem (t : Str) (c : Char) (h : ∀ x ∈ t, x ≠ c) :
    indexOfChar t c = none := by
  induction t with
  | nil => rfl
  | cons c0 rest ih =>
    unfold indexOfChar
    rw [if_neg (h c0 (by simp)), ih (fun x hx => h x (by simp [hx]))]
    rfl

/-- C6: on text containing none of `{`, `}`, `[`, `]` and without a JSON
fence, the extractor fails with the malformed-response error. -/
theorem bracket_free_malformed (t : Str)
    (hb : ∀ x ∈ t, x ≠ '[' ∧ x ≠ '{' ∧ x ≠ ']' ∧ x ≠ '}')
    (hf : fenceMatch t = none) :
    extractJson t = .error .malformed := by
  have h1 : indexOfChar t '[' = none :=
    indexOfChar_eq_none_of_not_mem _ _ (fun x hx => (hb x hx).1)
  have h2 : indexOfChar t '{' = none :=
    indexOfChar_eq_none_of_not_mem _ _ (fun x hx => (hb x hx).2.1)
  have h3 : firstBracket t = none := by simp only [firstBracket, h1, h2]
  simp only [extractJson, hf, bracketScan, h3]

/-- C6 witness: a concrete bracket-free text. -/
theorem bracket_free_malformed_witness :
    fenceMatch bracketFreeText = none ∧ extractJson bracketFreeText = .error .malformed :=
  ⟨by decide, bracket_free_malformed bracketFreeText (by decide) (by decide)⟩

theorem generatePhase_trace_lead (i : HandlerInput) (notes : Str) (count : JSNum)
    (style mode : Str) (plan : Plan) (used : JSNum) (eff : List Effect) :
    ∃ tail, (generatePhase i notes count style mode plan used eff).2 =
      eff ++ [.completionCall (buildFlashcardPrompt notes count style mode)] ++ tail := by
  unfold generatePhase
  cases hgr : i.groqResult with
  | httpError s d => exact ⟨[], by simp⟩
  | ok b =>
    cases hj : jsonParse b with
    | none => exact ⟨[], by simp [hj]⟩
    | some data =>
      cases hc : groqContent data with
      | none => exact ⟨[], by simp [hj, hc]⟩
      | some v =>
        by_cases hfv : jsFalsy v
        · exact ⟨[], by simp [hj, hc, hfv]⟩
        · cases hpc : parseContent v with
          | error e => exact ⟨[], by simp [hj, hc, hfv, hpc]⟩
          | ok parsed =>
            refine ⟨Effect.insertGeneration ::
              (if plan = Plan.free then
                [Effect.upsertUsage (jsAdd used (JSNum.num
                  ((cleanCards
                    (match jsGet parsed (("flashcards").data) with
                      | some (.arr xs) => xs
                      | _ => []) count).length : ℚ)))]
              else []), ?_⟩
            simp [hj, hc, hfv, hpc, List.append_assoc]

theorem generatePhase_success_or_plain (i : HandlerInput) (notes : Str) (count : JSNum)
    (style mode : Str) (plan : Plan) (used : JSNum) (eff : List Effect) :
    (∃ tl fl, (generatePhase i notes count style mode plan used eff).1 = .success tl fl) ∨
    (generatePhase i notes count style mode plan used eff).2 =
      eff ++ [.completionCall (buildFlashcardPrompt notes count style mode)] := by
  unfold generatePhase
  cases hgr : i.groqResult with
  | httpError s d => exact .inr (by simp)
  | ok b =>
    cases hj : jsonParse b with
    | none => exact .inr (by simp [hj])
    | some data =>
      cases hc : groqContent data with
      | none => exact .inr (by simp [hj, hc])
      | some v =>
        by_cases hfv : jsFalsy v
        · exact .inr (by simp [hj, hc, hfv])
        · cases hpc : parseContent v with
          | error e => exact .inr (by simp [hj, hc, hfv, hpc])
          | ok parsed =>
            refine .inl ⟨jsToString (jsCoalesce (jsGet parsed (("title").data))
                (.str (("Flashcards").data))),
              cleanCards
                (match jsGet parsed (("flashcards").data) with
                  | some (.arr xs) => xs
                  | _ => []) count, ?_⟩
            simp [hj, hc, hfv, hpc]

/-- C1: for a request reaching the free-plan quota check with stored usage
`u` and clamped count `c`: when `u + c > 100` the handler answers 402 with
payload fields `used = u` and `limit = 100`, the completion service is never
called and no further effect happens; when `u + c ≤ 100` the quota check
passes and the handler proceeds to the completion call. -/
theorem free_plan_quota_enforced (i : HandlerInput) (uid : Str) (u c : ℚ)
    (hn : (notesOf i.body).isEmpty = false)
    (hg : strFalsy i.groqApiKey = false)
    (hs : strFalsy i.supabaseUrl = false)
    (hk : strFalsy i.serviceRoleKey = false)
    (ht : (accessTokenOf i.authHeader).isEmpty = false)
    (hu : i.getUserResult = some uid)
    (hp : i.profilePlan ≠ some (.str (("premium").data)))
    (hused : jsToNumber (jsCoalesce i.usageUsed (.num 0)) = .num u)
    (hcount : countOf i.body = .num c) :
    (u + c > 100 →
      POST i = (.quotaExceeded (.num u) 100, [.getUser, .profileRead, .usageRead]) ∧
      ∀ p, Effect.completionCall p ∉ (POST i).2)
    ∧ (u + c ≤ 100 →
      ∃ tail, (POST i).2 =
        [.getUser, .profileRead, .usageRead,
          .completionCall (buildFlashcardPrompt (notesOf i.body) (.num c)
            (styleOf i.body) (modeOf i.body))] ++ tail) := by
  constructor
  · intro hgt
    have hb : jsGtBool (jsAdd (.num u) (.num c)) (.num 100) = true := by
      simp only [jsAdd, jsGtBool, decide_eq_true_eq]
      linarith
    have hP : POST i = (.quotaExceeded (.num u) 100, [.getUser, .profileRead, .usageRead]) := by
      simp [POST, hn, hg, hs, hk, ht, hu, hp, hused, hcount, hb]
    refine ⟨hP, ?_⟩
    intro p hmem
    rw [hP] at hmem
    simp at hmem
  · intro hle
    have hb : jsGtBool (jsAdd (.num u) (.num c)) (.num 100) = false := by
      simp only [jsAdd, jsGtBool, decide_eq_false_iff_not]
      linarith
    have hP : POST i = generatePhase i (notesOf i.body) (.num c) (styleOf i.body)
        (modeOf i.body) .free (.num u) [.getUser, .profileRead, .usageRead] := by
      simp [POST, hn, hg, hs, hk, ht, hu, hp, hused, hcount, hb]
    rw [hP]
    obtain ⟨tail, htail⟩ := generatePhase_trace_lead i (notesOf i.body) (.num c)
      (styleOf i.body) (modeOf i.body) .free (.num u) [.getUser, .profileRead, .usageRead]
    exact ⟨tail, by rw [htail]; simp⟩

/-- C1 witness: used 95 with count 10 is rejected with `used = 95`,
`limit = 100`; used 95 with count 5 passes the quota check and reaches the
completion call. -/
theorem free_plan_quota_enforced_witness :
    POST quotaRejectInput =
      (.quotaExceeded (.num 95) 100, [.getUser, .profileRead, .usageRead])
    ∧ ∃ tail, (POST quotaPassInput).2 =
        [.getUser, .profileRead, .usageRead,
          .completionCall (buildFlashcardPrompt (notesOf quotaPassInput.body) (.num 5)
            (styleOf quotaPassInput.body) (modeOf quotaPassInput.body))] ++ tail :=
  ⟨((free_plan_quota_enforced quotaRejectInput (("user-1").data) 95 10
      (by with_unfolding_all decide) (by decide) (by decide) (by decide) (by decide) rfl
      (by decide) rfl (by with_unfolding_all decide)).1 (by norm_num)).1,
   (free_plan_quota_enforced quotaPassInput (("user-1").data) 95 5
      (by with_unfolding_all decide) (by decide) (by decide) (by decide) (by decide) rfl
      (by decide) rfl (by with_unfolding_all decide)).2 (by norm_num)⟩

theorem POST_cases (i : HandlerInput) :
    (∃ r, POST i = (r, []) ∧ statusOf r ≠ 200) ∨
    POST i = (.unauthorized, [.getUser]) ∨
    (∃ u, POST i = (.quotaExceeded u 100, [.getUser, .profileRead, .usageRead])) ∨
    (∃ plan used eff,
      (eff = [Effect.getUser, .profileRead, .usageRead] ∨ eff = [Effect.getUser, .profileRead]) ∧
      POST i = generatePhase i (notesOf i.body) (countOf i.body) (styleOf i.body)
        (modeOf i.body) plan used eff) := by
  cases h1 : (notesOf i.body).isEmpty with
  | true => exact .inl ⟨.notesRequired, by simp [POST, h1], by decide⟩
  | false =>
  cases h2 : strFalsy i.groqApiKey with
  | true => exact .inl ⟨.missingGroqKey, by simp [POST, h1, h2], by decide⟩
  | false =>
  cases h3 : (strFalsy i.supabaseUrl || strFalsy i.serviceRoleKey) with
  | true => exact .inl ⟨.missingSupabaseEnv, by simp [POST, h1, h2, h3], by decide⟩
  | false =>
  cases h4 : (accessTokenOf i.authHeader).isEmpty with
  | true => exact .inl ⟨.unauthorized, by simp [POST, h1, h2, h3, h4], by decide⟩
  | false =>
  cases h5 : i.getUserResult with
  | none => exact .inr (.inl (by simp [POST, h1, h2, h3, h4, h5]))
  | some uid =>
  by_cases h6 : i.profilePlan = some (.str (("premium").data))
  · exact .inr (.inr (.inr ⟨.premium, .num 0, [Effect.getUser, .profileRead], .inr rfl,
      by simp [POST, h1, h2, h3, h4, h5, h6]⟩))
  · cases h7 : jsGtBool (jsAdd (jsToNumber (jsCoalesce i.usageUsed (.num 0))) (countOf i.body))
        (.num 100) with
    | true =>
      exact .inr (.inr (.inl ⟨jsToNumber (jsCoalesce i.usageUsed (.num 0)),
        by simp [POST, h1, h2, h3, h4, h5, h6, h7]⟩))
    | false =>
      exact .inr (.inr (.inr ⟨.free, jsToNumber (jsCoalesce i.usageUsed (.num 0)),
        [Effect.getUser, .profileRead, .usageRead], .inl rfl,
        by simp [POST, h1, h2, h3, h4, h5, h6, h7]⟩))

/-- C10: a request that terminates with a non-200 response initiates no
storage write: neither the generations insert nor the usage upsert appears in
its effect trace. -/
theorem no_storage_write_on_error (i : HandlerInput)
    (h : statusOf (POST i).1 ≠ 200) :
    Effect.insertGeneration ∉ (POST i).2 ∧ ∀ v, Effect.upsertUsage v ∉ (POST i).2 := by
  rcases POST_cases i with ⟨r, hr, _⟩ | hr | ⟨u, hr⟩ | ⟨plan, used, eff, heff, hr⟩
  · rw [hr]
    simp
  · rw [hr]
    simp
  · rw [hr]
    simp
  · rw [hr] at h ⊢
    rcases generatePhase_success_or_plain i (notesOf i.body) (countOf i.body) (styleOf i.body)
        (modeOf i.body) plan used eff with ⟨tl, fl, hsucc⟩ | hplain
    · exact absurd (by rw [hsucc]; rfl : statusOf (generatePhase i (notesOf i.body)
        (countOf i.body) (styleOf i.body) (modeOf i.body) plan used eff).1 = 200) h
    · rw [hplain]
      rcases heff with he | he <;> rw [he] <;> simp

/-- C10 witness: the 400 response for an empty body writes nothing. -/
theorem no_storage_write_on_error_witness :
    statusOf (POST emptyBodyInput).1 ≠ 200 ∧
    Effect.insertGeneration ∉ (POST emptyBodyInput).2 :=
  ⟨by with_unfolding_all decide,
   (no_storage_write_on_error emptyBodyInput (by with_unfolding_all decide)).1⟩

theorem indexOfChar_some_spec (t : Str) (c : Char) :
    ∀ i, indexOfChar t c = some i → t[i]? = some c ∧ ∀ j, j < i → t[j]? ≠ some c := by
  induction t with
  | nil => intro i h; exact absurd h (by simp [indexOfChar])
  | cons c0 rest ih =>
    intro i h
    unfold indexOfChar at h
    by_cases hc : c0 = c
    · rw [if_pos hc] at h
      obtain rfl : (0 : Nat) = i := Option.some.inj h
      exact ⟨by simp [hc], by omega⟩
    · rw [if_neg hc] at h
      rcases Option.map_eq_some'.mp h with ⟨i', hi', rfl⟩
      obtain ⟨h1, h2⟩ := ih i' hi'
      refine ⟨by simpa using h1, ?_⟩
      intro j hj
      cases j with
      | zero => simp [hc]
      | succ j' =>
        intro hh
        exact h2 j' (by omega) (by simpa using hh)

theorem not_mem_of_indexOfChar_eq_none (t : Str) (c : Char) (h : indexOfChar t c = none) :
    c ∉ t := by
  induction t with
  | nil => simp
  | cons c0 rest ih =>
    unfold indexOfChar at h
    by_cases hc : c0 = c
    · rw [if_pos hc] at h
      exact absurd h (by simp)
    · rw [if_neg hc] at h
      have hr : indexOfChar rest c = none := by
        cases hr2 : indexOfChar rest c with
        | none => rfl
        | some k => rw [hr2] at h; exact absurd h (by simp)
      intro hmem
      rcases List.mem_cons.mp hmem with h0 | h0
      · exact hc h0.symm
      · exact ih hr h0

theorem firstBracket_spec (t : Str) (f : Nat) (h : firstBracket t = some f) :
    (∃ c, t[f]? = some c ∧ isOpenBr c = true) ∧
    ∀ j, j < f → ∀ c, t[j]? = some c → isOpenBr c = false := by
  unfold firstBracket at h
  cases h1 : indexOfChar t '[' with
  | none =>
    cases h2 : indexOfChar t '{' with
    | none => rw [h1, h2] at h; exact absurd h (by simp)
    | some b =>
      rw [h1, h2] at h
      obtain rfl : b = f := Option.some.inj h
      obtain ⟨hb1, hb2⟩ := indexOfChar_some_spec t '{' b h2
      have hnm := not_mem_of_indexOfChar_eq_none t '[' h1
      refine ⟨⟨'{', hb1, by decide⟩, ?_⟩
      intro j hj c hc
      by_cases e1 : c = '['
      · subst e1; exact absurd (List.getElem?_mem hc) hnm
      · by_cases e2 : c = '{'
        · subst e2; exact absurd hc (hb2 j hj)
        · simp [isOpenBr, e1, e2]
  | some a =>
    cases h2 : indexOfChar t '{' with
    | none =>
      rw [h1, h2] at h
      obtain rfl : a = f := Option.some.inj h
      obtain ⟨ha1, ha2⟩ := indexOfChar_some_spec t '[' a h1
      have hnm := not_mem_of_indexOfChar_eq_none t '{' h2
      refine ⟨⟨'[', ha1, by decide⟩, ?_⟩
      intro j hj c hc
      by_cases e1 : c = '['
      · subst e1; exact absurd hc (ha2 j hj)
      · by_cases e2 : c = '{'
        · subst e2; exact absurd (List.getElem?_mem hc) hnm
        · simp [isOpenBr, e1, e2]
    | some b =>
      rw [h1, h2] at h
      obtain rfl : min a b = f := Option.some.inj h
      obtain ⟨ha1, ha2⟩ := indexOfChar_some_spec t '[' a h1
      obtain ⟨hb1, hb2⟩ := indexOfChar_some_spec t '{' b h2
      constructor
      · rcases le_total a b with hab | hab
        · exact ⟨'[', by rw [min_eq_left hab]; exact ha1, by decide⟩
        · exact ⟨'{', by rw [min_eq_right hab]; exact hb1, by decide⟩
      · intro j hj c hc
        have hja : j < a := lt_of_lt_of_le hj (min_le_left a b)
        have hjb : j < b := lt_of_lt_of_le hj (min_le_right a b)
        by_cases e1 : c = '['
        · subst e1; exact absurd hc (ha2 j hja)
        · by_cases e2 : c = '{'
          · subst e2; exact absurd hc (hb2 j hjb)
          · simp [isOpenBr, e1, e2]

theorem lastIndexOfInt_spec (t : Str) (c : Char) :
    (lastIndexOfInt t c = -1 ∧ ∀ j : Nat, t[j]? ≠ some c) ∨
    (∃ i : Nat, lastIndexOfInt t c = (i : Int) ∧ t[i]? = some c ∧
      ∀ j : Nat, i < j → t[j]? ≠ some c) := by
  unfold lastIndexOfInt
  cases h : indexOfChar t.reverse c with
  | none =>
    left
    refine ⟨rfl, ?_⟩
    intro j hj
    exact not_mem_of_indexOfChar_eq_none t.reverse c h
      (List.mem_reverse.mpr (List.getElem?_mem hj))
  | some k =>
    right
    obtain ⟨h1, h2⟩ := indexOfChar_some_spec t.reverse c k h
    have hk : k < t.length := by
      have hx := List.getElem?_eq_some_iff.mp h1
      simpa using hx.1
    refine ⟨t.length - 1 - k, rfl, ?_, ?_⟩
    · rw [List.getElem?_reverse hk] at h1
      exact h1
    · intro j hij hj
      have hjlen : j < t.length := by
        by_contra hge
        rw [List.getElem?_eq_none (by omega)] at hj
        exact absurd hj (by simp)
      have hrev : t.reverse[t.length - 1 - j]? = t[j]? := by
        rw [List.getElem?_reverse (by omega)]
        congr 1
        omega
      exact h2 (t.length - 1 - j) (by omega) (by rw [hrev]; exact hj)

theorem lastBracket_spec (t : Str) (hl : 0 ≤ lastBracket t) :
    (∃ c, t[(lastBracket t).toNat]? = some c ∧ isCloseBr c = true) ∧
    ∀ j : Nat, (lastBracket t).toNat < j → ∀ c, t[j]? = some c → isCloseBr c = false := by
  rcases lastIndexOfInt_spec t ']' with ⟨ha, ha2⟩ | ⟨ia, ha, ha1, ha2⟩ <;>
    rcases lastIndexOfInt_spec t '}' with ⟨hb, hb2⟩ | ⟨ib, hb, hb1, hb2⟩
  · exfalso
    unfold lastBracket at hl
    rw [ha, hb] at hl
    omega
  · have hmax : lastBracket t = (ib : Int) := by
      unfold lastBracket
      rw [ha, hb]
      exact max_eq_right (by omega)
    rw [hmax, Int.toNat_natCast]
    refine ⟨⟨'}', hb1, by decide⟩, ?_⟩
    intro j hj c hc
    by_cases e1 : c = ']'
    · subst e1; exact absurd hc (ha2 j)
    · by_cases e2 : c = '}'
      · subst e2; exact absurd hc (hb2 j hj)
      · simp [isCloseBr, e1, e2]
  · have hmax : lastBracket t = (ia : Int) := by
      unfold lastBracket
      rw [ha, hb]
      exact max_eq_left (by omega)
    rw [hmax, Int.toNat_natCast]
    refine ⟨⟨']', ha1, by decide⟩, ?_⟩
    intro j hj c hc
    by_cases e1 : c = ']'
    · subst e1; exact absurd hc (ha2 j hj)
    · by_cases e2 : c = '}'
      · subst e2; exact absurd hc (hb2 j)
      · simp [isCloseBr, e1, e2]
  · have hmax : lastBracket t = ((max ia ib : Nat) : Int) := by
      unfold lastBracket
      rw [ha, hb]
      rw [Nat.cast_max]
    rw [hmax, Int.toNat_natCast]
    constructor
    · rcases le_total ia ib with hab | hab
      · exact ⟨'}', by rw [max_eq_right hab]; exact hb1, by decide⟩
      · exact ⟨']', by rw [max_eq_left hab]; exact ha1, by decide⟩
    · intro j hj c hc
      have hja : ia < j := lt_of_le_of_lt (le_max_left ia ib) hj
      have hjb : ib < j := lt_of_le_of_lt (le_max_right ia ib) hj
      by_cases e1 : c = ']'
      · subst e1; exact absurd hc (ha2 j hja)
      · by_cases e2 : c = '}'
        · subst e2; exact absurd hc (hb2 j hjb)
        · simp [isCloseBr, e1, e2]

/-- C5: without a JSON fence, the extractor takes the first occurrence of
`[`/`{` and the last occurrence of `]`/`}`; when the first exists and the
last is strictly after it, it parses exactly the inclusive substring between
them; the spec's unfenced example yields the object with field `a = 1`. -/
theorem unfenced_bracket_scan (t : Str) (f : Nat)
    (hfence : fenceMatch t = none)
    (hfirst : firstBracket t = some f)
    (hlt : (f : Int) < lastBracket t) :
    ((∃ c, t[f]? = some c ∧ isOpenBr c = true) ∧
      ∀ j, j < f → ∀ c, t[j]? = some c → isOpenBr c = false)
    ∧ ((∃ c, t[(lastBracket t).toNat]? = some c ∧ isCloseBr c = true) ∧
      ∀ j : Nat, (lastBracket t).toNat < j → ∀ c, t[j]? = some c → isCloseBr c = false)
    ∧ extractJson t =
        (match jsonParse (sliceStr t f ((lastBracket t).toNat + 1)) with
          | some v => .ok v
          | none => .error .syntaxErr)
    ∧ extractJson unfencedText = .ok (.obj [(("a").data, .num 1)]) := by
  have hl0 : 0 ≤ lastBracket t :=
    le_of_lt (lt_of_le_of_lt (Int.natCast_nonneg f) hlt)
  refine ⟨firstBracket_spec t f hfirst, lastBracket_spec t hl0, ?_,
    by with_unfolding_all decide⟩
  simp only [extractJson, hfence, bracketScan, hfirst]
  rw [if_pos hlt]

/-- C5 witness: the concrete unfenced example, with first `{` at index 20 and
last `}` at index 26. -/
theorem unfenced_bracket_scan_witness :
    fenceMatch unfencedText = none ∧ firstBracket unfencedText = some 20 ∧
    lastBracket unfencedText = 26 ∧
    extractJson unfencedText =
      (match jsonParse (sliceStr unfencedText 20 27) with
        | some v => .ok v
        | none => .error .syntaxErr) := by
  refine ⟨by decide, by decide, by decide, ?_⟩
  have h := (unfenced_bracket_scan unfencedText 20 (by decide) (by decide) (by decide)).2.2.1
  rwa [show ((lastBracket unfencedText).toNat + 1) = 27 from by decide] at h
